import Mathlib

/-!
# sweet: collection scheduler and interactive drivers

A shallow embedding of `sweet.go`, `cisco.go`, `juniper.go` and `external.go`.

* Go maps of type `map[string]string` are reference values.  A map value is a
  `StrMap`; a `DeviceAccess` holds a reference into a `Heap` of maps (`none` is
  the nil map), so that a write through a copied descriptor is visible through
  every other descriptor holding the same reference.
* `time.Duration` is a number of nanoseconds (`Int`), `time.Time` a number of
  nanoseconds since the zero time (`Nat`, the zero value being `0`).
* Go `error` values are represented by their `Error()` text.
* The bodies of the receive-side helpers `expect`, `expectMulti` and
  `timeoutSave` are not among the sources, and the ssh process, the external
  commands and the clock lie outside the program.  The drivers run against a
  `Session` that answers each helper call, and an attempt runs in a `World`
  that fixes what the outside does.
* `collectDevice` ends by returning, by `LogFatal`, or by a run-time panic
  (`Outcome`); a round of `RunCollectors` is a transition system over the two
  channels, the dispatching goroutine and the waiting loop (`Round`).
-/

namespace Sweet

/-! ## Maps and the heap -/

/-- A Go `map[string]string` value. -/
abbrev StrMap := String → Option String

/-- The empty map, `make(map[string]string)`. -/
def StrMap.empty : StrMap := fun _ => none

/-- The map after `m[k] = v`. -/
def StrMap.set (m : StrMap) (k v : String) : StrMap :=
  fun x => if x = k then some v else m x

/-- The heap of allocated maps, by address. -/
abbrev Heap := Nat → StrMap

/-- Durations in nanoseconds. -/
abbrev Duration := Int

/-- The constant `time.Second`. -/
def Second : Duration := 1000000000

/-- The constant `time.Millisecond`. -/
def Millisecond : Duration := 1000000

/-- DeviceAccess stores host access info (`sweet.go`, lines 22-28). `Config` is
a map reference; `none` is the nil map. -/
structure DeviceAccess where
  Hostname : String
  Method : String
  Target : String
  Timeout : Duration
  Config : Option Nat

/-- The comma-ok read `_, ok := m[k]` through a map reference, together with the
value; a nil map has no key. -/
def mapGet (h : Heap) (m : Option Nat) (k : String) : Option String :=
  match m with
  | none => none
  | some a => h a k

/-- The value read `m[k]` through a map reference. -/
def mapVal (h : Heap) (m : Option Nat) (k : String) : String :=
  (mapGet h m k).getD ""

/-- The write `m[k] = v` through a map reference; `none` is the run-time panic
of a write to a nil map. -/
def mapSet (h : Heap) (m : Option Nat) (k v : String) : Option Heap :=
  match m with
  | none => none
  | some a => some (fun b => if b = a then (h a).set k v else h b)

/-! ## Sessions and the interactive drivers -/

/-- A call of one of the receive-side helpers, with its arguments. -/
inductive Call where
  | expect (assert : String)
  | expectMulti (asserts : List String)
  | timeoutSave (timeout : Duration)
  deriving DecidableEq, Repr

/-- What a driver does to its session, in program order. -/
inductive Event where
  | send (s : String)
  | await (c : Call)
  deriving DecidableEq, Repr

/-- The answer to one helper call: the returned string (the matched candidate
of `expectMulti`, the text of `timeoutSave`) and the returned error. -/
structure Resp where
  val : String
  err : Option String

/-- The behaviour of a session: whether `pty.Start` fails for a command line,
and the answer to the n-th helper call made on the session. -/
structure Session where
  start : List String → Option String
  resp : Nat → Resp

/-- The live collector of one attempt: its session, the number of helper calls
made so far, and everything done so far. -/
structure SSHCollector where
  session : Session
  calls : Nat
  trace : List Event

/-- The command line built by `newSSHCollector` (`sweet.go`, lines 268-274). -/
def sshCommand (h : Heap) (device : DeviceAccess) : List String :=
  if (mapGet h device.Config "insecure").isSome ∧ mapVal h device.Config "insecure" = "true" then
    ["ssh", "-oStrictHostKeyChecking=no", mapVal h device.Config "user" ++ "@" ++ device.Target]
  else
    ["ssh", mapVal h device.Config "user" ++ "@" ++ device.Target]

/-- The function `newSSHCollector` (`sweet.go`, lines 263-310): the collector,
and the error of `pty.Start` if any. -/
def newSSHCollector (s : Session) (h : Heap) (device : DeviceAccess) :
    SSHCollector × Option String :=
  (⟨s, 0, []⟩, s.start (sshCommand h device))

/-- The statement `c.Send <- str`. -/
def SSHCollector.Send (c : SSHCollector) (str : String) : SSHCollector :=
  { c with trace := c.trace ++ [Event.send str] }

/-- One helper call on `c.Receive`, answered by the session. -/
def SSHCollector.call (c : SSHCollector) (k : Call) : Resp × SSHCollector :=
  (c.session.resp c.calls, { c with calls := c.calls + 1, trace := c.trace ++ [Event.await k] })

/-- The call `expect(assert, c.Receive)`. -/
def expect (assert : String) (c : SSHCollector) : Option String × SSHCollector :=
  ((c.call (Call.expect assert)).1.err, (c.call (Call.expect assert)).2)

/-- The call `expectMulti(asserts, c.Receive)`. -/
def expectMulti (asserts : List String) (c : SSHCollector) :
    String × Option String × SSHCollector :=
  ((c.call (Call.expectMulti asserts)).1.val, (c.call (Call.expectMulti asserts)).1.err,
    (c.call (Call.expectMulti asserts)).2)

/-- The call `timeoutSave(c.Receive, timeout)`. -/
def timeoutSave (timeout : Duration) (c : SSHCollector) :
    String × Option String × SSHCollector :=
  ((c.call (Call.timeoutSave timeout)).1.val, (c.call (Call.timeoutSave timeout)).1.err,
    (c.call (Call.timeoutSave timeout)).2)

/-- What a `Collect` call returns, with the trace of its session. -/
structure Collected where
  result : StrMap
  err : Option String
  trace : List Event

/-- The method `Cisco.Collect` (`cisco.go`, lines 15-60). -/
def Cisco.Collect (s : Session) (h : Heap) (device : DeviceAccess) : Collected :=
  let result := StrMap.empty
  let (c, err) := newSSHCollector s h device
  match err with
  | some err => ⟨result, some err, c.trace⟩
  | none =>
  let (err, c) := expect "assword:" c
  match err with
  | some err => ⟨result, some err, c.trace⟩
  | none =>
  let c := c.Send (mapVal h device.Config "pass" ++ "\n")
  let multi := ["#", ">", "assword:"]
  let (m, err, c) := expectMulti multi c
  match err with
  | some err => ⟨result, some err, c.trace⟩
  | none =>
  if m = "assword:" then
    ⟨result, some (device.Hostname ++ ": Bad login password."), c.trace⟩
  else
  let rest (c : SSHCollector) : Collected :=
    let c := c.Send "terminal length 0\n"
    let (err, c) := expect "#" c
    match err with
    | some err => ⟨result, some err, c.trace⟩
    | none =>
    let c := c.Send "terminal pager 0\n"
    let (err, c) := expect "#" c
    match err with
    | some err => ⟨result, some err, c.trace⟩
    | none =>
    let c := c.Send "show running-config\n"
    let (text, err, c) := timeoutSave (2 * Second) c
    let result := result.set "config" text
    match err with
    | some err => ⟨result, some err, c.trace⟩
    | none =>
    let c := c.Send "exit\n"
    ⟨result, none, c.trace⟩
  if m = ">" then
    let c := c.Send "enable\n"
    let (err, c) := expect "assword:" c
    match err with
    | some err => ⟨result, some err, c.trace⟩
    | none =>
    let c := c.Send (mapVal h device.Config "enable" ++ "\n")
    let (err, c) := expect "#" c
    match err with
    | some err => ⟨result, some err, c.trace⟩
    | none => rest c
  else rest c

/-- The method `JunOS.Collect` (`juniper.go`, lines 15-49). -/
def JunOS.Collect (s : Session) (h : Heap) (device : DeviceAccess) : Collected :=
  let result := StrMap.empty
  let (c, err) := newSSHCollector s h device
  match err with
  | some err => ⟨result, some err, c.trace⟩
  | none =>
  let (err, c) := expect "assword:" c
  match err with
  | some err => ⟨result, some err, c.trace⟩
  | none =>
  let c := c.Send (mapVal h device.Config "pass" ++ "\n")
  let multi := [">", "assword:"]
  let (m, err, c) := expectMulti multi c
  match err with
  | some err => ⟨result, some err, c.trace⟩
  | none =>
  if m = "assword:" then
    ⟨result, some (device.Hostname ++ ": Bad login password."), c.trace⟩
  else
  let c := c.Send "set cli screen-length 0\n"
  let (err, c) := expect ">" c
  match err with
  | some err => ⟨(result.set "err" (device.Hostname ++ ": " ++ err)), some err, c.trace⟩
  | none =>
  let c := c.Send "show configuration\n"
  let (text, err, c) := timeoutSave (2500 * Millisecond) c
  let result := result.set "config" text
  match err with
  | some err => ⟨(result.set "err" (device.Hostname ++ ": " ++ err)), some err, c.trace⟩
  | none =>
  let c := c.Send "exit\n"
  ⟨result, none, c.trace⟩

/-- The strings written to the Send flow, in order. -/
def sentStrings : List Event → List String
  | [] => []
  | Event.send s :: es => s :: sentStrings es
  | Event.await _ :: es => sentStrings es

/-- The helper calls made, in order. -/
def awaitedCalls : List Event → List Call
  | [] => []
  | Event.send _ :: es => awaitedCalls es
  | Event.await c :: es => c :: awaitedCalls es

/-- The shortest prefix of a step list that holds `n` helper calls: the steps
up to and including the n-th call. -/
def throughAwait : Nat → List Event → List Event
  | 0, _ => []
  | _ + 1, [] => []
  | n + 1, Event.await c :: es => Event.await c :: throughAwait n es
  | n + 1, Event.send s :: es => Event.send s :: throughAwait (n + 1) es

/-- The steps of `Cisco.Collect` in source order, for a device's `pass` and
`enable` and for the candidate `m` returned at the branch. -/
def Cisco.steps (pass enable m : String) : List Event :=
  [Event.await (Call.expect "assword:"), Event.send (pass ++ "\n"),
    Event.await (Call.expectMulti ["#", ">", "assword:"])] ++
  (if m = "assword:" then [] else
    (if m = ">" then
      [Event.send "enable\n", Event.await (Call.expect "assword:"),
        Event.send (enable ++ "\n"), Event.await (Call.expect "#")]
     else []) ++
    [Event.send "terminal length 0\n", Event.await (Call.expect "#"),
      Event.send "terminal pager 0\n", Event.await (Call.expect "#"),
      Event.send "show running-config\n", Event.await (Call.timeoutSave (2 * Second)),
      Event.send "exit\n"])

/-- The steps of `JunOS.Collect` in source order, for a device's `pass` and for
the candidate `m` returned at the branch. -/
def JunOS.steps (pass m : String) : List Event :=
  [Event.await (Call.expect "assword:"), Event.send (pass ++ "\n"),
    Event.await (Call.expectMulti [">", "assword:"])] ++
  (if m = "assword:" then [] else
    [Event.send "set cli screen-length 0\n", Event.await (Call.expect ">"),
      Event.send "show configuration\n",
      Event.await (Call.timeoutSave (2500 * Millisecond)),
      Event.send "exit\n"])

/-! ## The status registry -/

/-- DeviceStatus (`sweet.go`, lines 316-320). -/
structure DeviceStatus where
  Hostname : String
  Message : String
  LastSuccess : Nat
  deriving DecidableEq, Repr

/-- The zero value `DeviceStatus{}`. -/
def DeviceStatus.zero : DeviceStatus := ⟨"", "", 0⟩

/-- The map `Status.Status` of the registry; the lock is not modelled, every
operation below being one atomic step. -/
abbrev Status := String → Option DeviceStatus

/-- The method `Status.Get` (`sweet.go`, lines 322-328): the zero value for a
hostname without entry. -/
def Status.Get (s : Status) (device : String) : DeviceStatus :=
  (s device).getD DeviceStatus.zero

/-- The method `Status.Set` (`sweet.go`, lines 337-343). -/
def Status.Set (s : Status) (stat : DeviceStatus) : Status :=
  fun k => if k = stat.Hostname then some stat else s k

/-! ## Options, the world outside, and the state of a round -/

/-- The fields of `SweetOptions` (`sweet.go`, lines 56-76) read by the
scheduler; `Status` is held in the `State` below. -/
structure SweetOptions where
  Timeout : Duration
  Insecure : Bool
  Concurrency : Nat
  ExecutableDir : String
  DefaultUser : String
  DefaultPass : String
  DefaultMethod : String
  Devices : List DeviceAccess

/-- The behaviour of an external command started by `External.Collect`. -/
structure Process where
  startErr : Option String
  waitAfter : Option Duration
  waitErr : Option String
  stdout : String
  stderr : String
  signalErr : Option String

/-- Everything outside the program that an attempt depends on: the library
function `time.ParseDuration`, the session met by an interactive driver and the
time its `Collect` takes (`none`: it never returns), `shellquote.Split`, the
external commands, how a `select` with two ready arms is resolved, the result
of `ioutil.WriteFile`, and the clock. -/
structure World where
  parseDuration : String → Option Duration
  session : Session
  sessionElapsed : Option Duration
  split : String → Except String (List String)
  exec : List String → Process
  timerWinsTie : Bool
  writeFile : String → String → Option String
  now : Nat

/-- The shared state an attempt acts on: the heap of maps, the registry
`Opts.Status`, the hostnames sent on `done`, the files written, and the lines
logged by `LogErr`. -/
structure State where
  heap : Heap
  status : Status
  done : List String
  files : List (String × String)
  errLog : List String

/-- How a call of `collectDevice` ends. -/
inductive Outcome where
  | fatal (msg : String) (st : State)
  | panic (st : State)
  | returned (st : State)

/-- Modelled from the spec: `Opts.LogFatal` is not among the sources; by the
process exit contract a fatal configuration error terminates the process after
logging the cause. -/
def LogFatal (msg : String) (st : State) : Outcome := Outcome.fatal msg st

/-- Modelled from the spec: `Opts.LogErr` is not among the sources; it emits one
log line and returns. -/
def LogErr (msg : String) (st : State) : State := { st with errLog := st.errLog ++ [msg] }

/-- Which arm of a `select` between `time.After(d)` and an event that arrives
after `elapsed` (`none`: never) is taken: `true` for the timer. -/
def timerFirst (d : Duration) (elapsed : Option Duration) (tie : Bool) : Bool :=
  match elapsed with
  | none => true
  | some t => if d < t then true else if d = t then tie else false

/-- The expression `int(d.Seconds())`: whole seconds, truncated toward zero
(`Seconds` goes through `float64`; the two agree whenever that sum is exact, in
particular for whole seconds). -/
def seconds (d : Duration) : Int := Int.tdiv d Second

/-- The text `"Timeout collecting from %s after %d seconds"`. -/
def timeoutMessage (device : DeviceAccess) : String :=
  "Timeout collecting from " ++ device.Hostname ++ " after " ++
    toString (seconds device.Timeout) ++ " seconds"

/-- What a driver call returns and the time it takes (`none`: never). -/
structure Driven where
  result : StrMap
  err : Option String
  elapsed : Option Duration

/-- The method `External.Collect` (`external.go`, lines 22-65); `none` is the
run-time panic of `commandParts[0]` on an empty list. -/
def External.Collect (w : World) (h : Heap) (device : DeviceAccess) : Option Driven :=
  let result := StrMap.empty
  match w.split (mapVal h device.Config "scriptPath") with
  | Except.error err => some ⟨result, some err, some 0⟩
  | Except.ok commandParts =>
  match commandParts with
  | [] => none
  | _ :: _ =>
  let cmd := w.exec commandParts
  match cmd.startErr with
  | some err => some ⟨result, some err, some 0⟩
  | none =>
  if timerFirst device.Timeout cmd.waitAfter w.timerWinsTie then
    match cmd.signalErr with
    | some err => some ⟨result, some err, some device.Timeout⟩
    | none => some ⟨result, some (timeoutMessage device), some device.Timeout⟩
  else
    match cmd.waitErr with
    | some err =>
      let errMessage := cmd.stderr.dropRightWhile (fun ch => ch = '\n') ++ " " ++ err
      some ⟨result,
        some ("Error collecting from " ++ device.Hostname ++ ": " ++ errMessage), cmd.waitAfter⟩
    | none => some ⟨result.set "config" cmd.stdout, none, cmd.waitAfter⟩

/-- The three implementations of the `Collector` interface. -/
inductive Collector where
  | External
  | Cisco
  | JunOS
  deriving DecidableEq, Repr

/-- The interface call `c.Collect(device)`. -/
def Collector.Collect (c : Collector) (w : World) (h : Heap) (device : DeviceAccess) :
    Option Driven :=
  match c with
  | Collector.External => External.Collect w h device
  | Collector.Cisco =>
    some ⟨(Cisco.Collect w.session h device).result, (Cisco.Collect w.session h device).err,
      w.sessionElapsed⟩
  | Collector.JunOS =>
    some ⟨(JunOS.Collect w.session h device).result, (JunOS.Collect w.session h device).err,
      w.sessionElapsed⟩

/-- The constant `os.PathSeparator` (on the Unix systems the program runs on). -/
def PathSeparator : Char := '/'

/-- The text `fmt.Sprintf("Config missing from collection results", hostname)`:
the format has no verb, so `Sprintf` appends the unused argument. -/
def configMissingMessage (hostname : String) : String :=
  "Config missing from collection results%!(EXTRA string=" ++ hostname ++ ")"

/-- The timeout override (`sweet.go`, lines 152-160): the value assigned to
`device.Timeout`, the global timeout unless the device's map has a `"timeout"`
entry, which is then parsed as a number of seconds; `none` when
`time.ParseDuration` returns an error. -/
def deviceTimeout (w : World) (Opts : SweetOptions) (h : Heap) (config : Option Nat) :
    Option Duration :=
  match mapGet h config "timeout" with
  | none => some Opts.Timeout
  | some v => w.parseDuration (v ++ "s")

/-- Settings resolution (`sweet.go`, lines 145-187): the attempt's own copy of
the descriptor and the state after the writes, or the way the attempt ended. -/
def resolveSettings (w : World) (Opts : SweetOptions) (device : DeviceAccess) (st : State) :
    Except Outcome (DeviceAccess × State) :=
  -- lines 145-150
  if device.Method = "" ∧ Opts.DefaultMethod = "" then
    Except.error (LogFatal ("No method specified for " ++ device.Hostname ++
      " and default-method not defined.") st)
  else
  let device :=
    { device with Method := if device.Method = "" then Opts.DefaultMethod else device.Method }
  -- lines 152-160
  match deviceTimeout w Opts st.heap device.Config with
  | none =>
    Except.error (LogFatal ("Bad timeout setting " ++ mapVal st.heap device.Config "timeout" ++
      " for host " ++ device.Hostname) st)
  | some timeout =>
  let device := { device with Timeout := timeout }
  -- lines 162-168
  let ok := (mapGet st.heap device.Config "user").isSome
  if ¬ ok ∧ Opts.DefaultUser = "" then
    Except.error (LogFatal ("No user specified for " ++ device.Hostname ++
      " and default-user not defined.") st)
  else
  match (if ok then some st.heap else mapSet st.heap device.Config "user" Opts.DefaultUser) with
  | none => Except.error (Outcome.panic st)
  | some heap =>
  let st := { st with heap := heap }
  -- lines 169-175
  let ok := (mapGet st.heap device.Config "pass").isSome
  if ¬ ok ∧ Opts.DefaultPass = "" then
    Except.error (LogFatal ("No pass specified for " ++ device.Hostname ++
      " and default-pass not defined.") st)
  else
  match (if ok then some st.heap else mapSet st.heap device.Config "pass" Opts.DefaultPass) with
  | none => Except.error (Outcome.panic st)
  | some heap =>
  let st := { st with heap := heap }
  -- lines 176-179
  let ok := (mapGet st.heap device.Config "enable").isSome
  match (if ok then some st.heap
         else mapSet st.heap device.Config "enable" (mapVal st.heap device.Config "pass")) with
  | none => Except.error (Outcome.panic st)
  | some heap =>
  let st := { st with heap := heap }
  -- lines 180-184
  let ok := (mapGet st.heap device.Config "ip").isSome
  let device :=
    { device with Target := if ok then mapVal st.heap device.Config "ip" else device.Hostname }
  -- lines 185-187
  match (if Opts.Insecure then mapSet st.heap device.Config "insecure" "true"
         else some st.heap) with
  | none => Except.error (Outcome.panic st)
  | some heap =>
  Except.ok (device, { st with heap := heap })

/-- The test `s[0] != sep` on the first byte of a string; `none` is the
run-time panic of an index out of range, on the empty string.  The separator is
an ASCII character, so the first byte differs from it exactly when the first
character does. -/
def firstByteIsNot (s : String) (sep : Char) : Option Bool :=
  match s.data with
  | [] => none
  | ch :: _ => some (decide (ch ≠ sep))

/-- The choice of the collector (`sweet.go`, lines 193-211): the collector and
the heap after the `scriptPath` writes; `Except.ok none` when the method is
unknown; `Except.error` for a run-time panic. -/
def chooseCollector (Opts : SweetOptions) (device : DeviceAccess) (st : State) :
    Except Outcome (Option Collector × State) :=
  if device.Method = "external" then
    match mapSet st.heap device.Config "scriptPath" (mapVal st.heap device.Config "script") with
    | none => Except.error (Outcome.panic st)
    | some heap =>
    let st := { st with heap := heap }
    match firstByteIsNot (mapVal st.heap device.Config "script") PathSeparator with
    | none => Except.error (Outcome.panic st)
    | some relative =>
    match (if relative then
             mapSet st.heap device.Config "scriptPath"
               (Opts.ExecutableDir ++ String.singleton PathSeparator ++
                 mapVal st.heap device.Config "script")
           else some st.heap) with
    | none => Except.error (Outcome.panic st)
    | some heap => Except.ok (some Collector.External, { st with heap := heap })
  else if device.Method = "cisco" then Except.ok (some Collector.Cisco, st)
  else if device.Method = "junos" then Except.ok (some Collector.JunOS, st)
  else Except.ok (none, st)

/-- The function `collectDevice` (`sweet.go`, lines 142-261). -/
def collectDevice (w : World) (Opts : SweetOptions) (device : DeviceAccess) (st : State) :
    Outcome :=
  match resolveSettings w Opts device st with
  | Except.error out => out
  | Except.ok (device, st) =>
  -- lines 189-191
  let status : DeviceStatus := { DeviceStatus.zero with Hostname := device.Hostname }
  -- lines 193-211
  match chooseCollector Opts device st with
  | Except.error out => out
  | Except.ok (none, st) =>
    let status := { status with Message := "Unknown access method: " ++ device.Method }
    let st := LogErr status.Message st
    let st := { st with status := st.status.Set status }
    Outcome.returned { st with done := st.done ++ [device.Hostname] }
  | Except.ok (some c, st) =>
  -- lines 213-238
  match c.Collect w st.heap device with
  | none => Outcome.panic st
  | some run =>
  if timerFirst Opts.Timeout run.elapsed w.timerWinsTie then
    let status := { status with Message := timeoutMessage device }
    let st := LogErr status.Message st
    let st := { st with status := st.status.Set status }
    Outcome.returned { st with done := st.done ++ [device.Hostname] }
  else
  match run.err with
  | some err =>
    let st := LogErr err st
    let status := { status with Message := err }
    let st := { st with status := st.status.Set status }
    Outcome.returned { st with done := st.done ++ [device.Hostname] }
  | none =>
  let collectionResults := run.result
  -- lines 240-247
  match collectionResults "config" with
  | none =>
    let status := { status with Message := configMissingMessage device.Hostname }
    let st := LogErr status.Message st
    let st := { st with status := st.status.Set status }
    Outcome.returned { st with done := st.done ++ [device.Hostname] }
  | some rawConfig =>
  -- lines 251-254
  match w.writeFile device.Hostname rawConfig with
  | some err => LogFatal ("Error saving config to workspace: " ++ err) st
  | none =>
  let st := { st with files := st.files ++ [(device.Hostname, rawConfig)] }
  -- lines 257-260
  let status := { status with Message := "success" }
  let status := { status with LastSuccess := w.now }
  let st := { st with status := st.status.Set status }
  Outcome.returned { st with done := st.done ++ [device.Hostname] }

/-! ## Failing steps of a driver run -/

/-- The first failure of a session met by a driver: `none` when `pty.Start`
fails with `e` for the command line `cmd`; `some k` when the session opens, the
helper calls before the k-th succeed and the k-th returns the error `e`. -/
def firstFailure (s : Session) (cmd : List String) (step : Option Nat) (e : String) : Prop :=
  match step with
  | none => s.start cmd = some e
  | some k => s.start cmd = none ∧ (∀ i, i < k → (s.resp i).err = none) ∧
      (s.resp k).err = some e

/-- The number of helper calls made up to and including a failing step. -/
def callsThrough : Option Nat → Nat
  | none => 0
  | some k => k + 1

/-- The state in which a call of `collectDevice` ends. -/
def Outcome.state : Outcome → State
  | Outcome.fatal _ st => st
  | Outcome.panic st => st
  | Outcome.returned st => st

/-- The per-device failures of an attempt and their messages, for the resolved
descriptor `device`, the heap `h` the driver reads and the chosen collector
(`none`: the method is unknown): unknown access method, timeout, driver error,
and result without a `"config"` key. -/
inductive AttemptFailure (w : World) (Opts : SweetOptions) (device : DeviceAccess) (h : Heap) :
    Option Collector → String → Prop where
  | unknownMethod :
      AttemptFailure w Opts device h none ("Unknown access method: " ++ device.Method)
  | timeout (c : Collector) (run : Driven) :
      c.Collect w h device = some run →
      timerFirst Opts.Timeout run.elapsed w.timerWinsTie = true →
      AttemptFailure w Opts device h (some c) (timeoutMessage device)
  | driverError (c : Collector) (run : Driven) (err : String) :
      c.Collect w h device = some run →
      timerFirst Opts.Timeout run.elapsed w.timerWinsTie = false →
      run.err = some err →
      AttemptFailure w Opts device h (some c) err
  | configMissing (c : Collector) (run : Driven) :
      c.Collect w h device = some run →
      timerFirst Opts.Timeout run.elapsed w.timerWinsTie = false →
      run.err = none →
      run.result "config" = none →
      AttemptFailure w Opts device h (some c) (configMissingMessage device.Hostname)

/-- The state carried by the result of settings resolution or of the choice of
the collector, whichever way it ended. -/
def stateOf {α : Type} : Except Outcome (α × State) → State
  | Except.error out => out.state
  | Except.ok (_, st) => st

/-- The keys that `collectDevice` writes into a device's map. -/
def writtenKeys : List String := ["user", "pass", "enable", "insecure", "scriptPath"]

/-- The keys that `collectDevice` writes only when they are absent. -/
def filledKeys : List String := ["user", "pass", "enable"]

/-- The heap `h'` differs from `h` at most by writes of an attempt on the map
`config`: a changed entry is in that map, and is either one of `insecure`,
`scriptPath` or one of `user`, `pass`, `enable` that was absent. -/
def Writes (config : Option Nat) (h h' : Heap) : Prop :=
  ∀ a k, h' a k = h a k ∨
    (config = some a ∧ (k ∈ ["insecure", "scriptPath"] ∨ (k ∈ filledKeys ∧ h a k = none)))

/-! ## One round of `RunCollectors` as a transition system -/

/-- Where the dispatching goroutine (`sweet.go`, lines 89-95) stands: about to
send on `collectorSlots` for the next device, or about to start its attempt. -/
inductive DispatchPc where
  | send
  | spawn
  deriving DecidableEq, Repr

/-- Where the waiting loop (`sweet.go`, lines 97-102) stands: about to receive
from `collectorSlots`, or about to receive from `done`. -/
inductive WaitPc where
  | slot
  | done
  deriving DecidableEq, Repr

/-- The state of one round: the tokens buffered in `collectorSlots`, the devices
the dispatcher has still to go through, its position, the attempts started that
have not yet sent on `done` (in flight), the hostnames buffered in `done`, the
number of completed iterations of the waiting loop, and its position. -/
structure Round where
  slots : Nat
  pending : List String
  dpc : DispatchPc
  running : List String
  doneQ : List String
  waited : Nat
  wpc : WaitPc
  deriving DecidableEq, Repr

/-- The atomic steps of a round. -/
inductive Action where
  /-- The dispatcher's `collectorSlots <- true` into the buffer. -/
  | send
  /-- The dispatcher's send met by the waiting loop's receive, on an unbuffered
  channel. -/
  | handoff
  /-- The dispatcher's `go collectDevice(device, Opts, done)`. -/
  | spawn
  /-- The attempt at position `i` among those in flight sends on `done`. -/
  | finish (i : Nat)
  /-- The waiting loop's `<-collectorSlots`. -/
  | takeSlot
  /-- The waiting loop's `<-done`. -/
  | takeDone
  deriving DecidableEq, Repr

/-- The state at the start of a round over the given hostnames. -/
def Round.init (devices : List String) : Round :=
  ⟨0, devices, DispatchPc.send, [], [], 0, WaitPc.slot⟩

/-- One step of a round with `K = Opts.Concurrency` slots over `N` devices;
`none` when the step is not enabled (the goroutine is blocked or elsewhere). -/
def Round.step (K N : Nat) (s : Round) : Action → Option Round
  | Action.send =>
    if s.dpc = DispatchPc.send ∧ s.pending ≠ [] ∧ s.slots < K then
      some { s with slots := s.slots + 1, dpc := DispatchPc.spawn }
    else none
  | Action.handoff =>
    if K = 0 ∧ s.dpc = DispatchPc.send ∧ s.pending ≠ [] ∧ s.wpc = WaitPc.slot ∧ s.waited < N then
      some { s with dpc := DispatchPc.spawn, wpc := WaitPc.done }
    else none
  | Action.spawn =>
    match s.pending with
    | [] => none
    | d :: rest =>
      if s.dpc = DispatchPc.spawn then
        some { s with pending := rest, running := s.running ++ [d], dpc := DispatchPc.send }
      else none
  | Action.finish i =>
    match s.running.get? i with
    | none => none
    | some d => some { s with running := s.running.eraseIdx i, doneQ := s.doneQ ++ [d] }
  | Action.takeSlot =>
    if s.wpc = WaitPc.slot ∧ s.waited < N ∧ 0 < s.slots then
      some { s with slots := s.slots - 1, wpc := WaitPc.done }
    else none
  | Action.takeDone =>
    match s.doneQ with
    | [] => none
    | _ :: rest =>
      if s.wpc = WaitPc.done then
        some { s with doneQ := rest, waited := s.waited + 1, wpc := WaitPc.slot }
      else none

/-- The state after a schedule of steps, when every step is enabled. -/
def Round.run (K N : Nat) (s : Round) : List Action → Option Round
  | [] => some s
  | a :: as =>
    match Round.step K N s a with
    | none => none
    | some s' => Round.run K N s' as

/-- The states reachable in one round over `devices` with `K` slots. -/
def Reachable (K : Nat) (devices : List String) (s : Round) : Prop :=
  ∃ schedule, Round.run K devices.length (Round.init devices) schedule = some s

/-- The number of attempts in flight: started and not yet sent on `done`. -/
def Round.inFlight (s : Round) : Nat := s.running.length

/-- The counting invariant of a round. -/
def Round.Inv (K : Nat) (s : Round) : Prop :=
  s.slots ≤ K ∧
  s.running.length + s.doneQ.length + (if s.dpc = DispatchPc.spawn then 1 else 0) =
    s.slots + (if s.wpc = WaitPc.done then 1 else 0)

/-! ## The branch primitive over a stream of chunks -/

/-- The test `strings.Contains(s, p)` on character lists. -/
def containsChars : List Char → List Char → Bool
  | [], p => p.isEmpty
  | c :: cs, p => p.isPrefixOf (c :: cs) || containsChars cs p

/-- The test that the buffer contains the pattern as a substring. -/
def contains (buffer pattern : String) : Bool := containsChars buffer.data pattern.data

/-- Modelled from the spec: the body of `expectMulti` (the primitive
`awaitFirstOf`) is not among the sources.  It accumulates the chunks of the
inbound flow into a growing buffer; after every new chunk it evaluates the
candidates in the caller-supplied order, and the first candidate found present
in the buffer wins, whatever the buffer offsets; it returns an error (`none`)
when the flow closes before any candidate is found.  The result is the matched
candidate together with the buffer accumulated at that moment. -/
def awaitFirstOf (patterns : List String) (buffer : String) :
    List String → Option (String × String)
  | [] => none
  | chunk :: rest =>
    match patterns.find? (fun p => contains (buffer ++ chunk) p) with
    | some p => some (p, buffer ++ chunk)
    | none => awaitFirstOf patterns (buffer ++ chunk) rest

/-- The candidates that `Cisco.Collect` passes at the branch (`cisco.go`, line 27). -/
def Cisco.multi : List String := ["#", ">", "assword:"]

/-- The candidates that `JunOS.Collect` passes at the branch (`juniper.go`,
line 27). -/
def JunOS.multi : List String := [">", "assword:"]

/-- The run took the authentication-failure outcome: it ended right after the
branch, its second helper call, with the bad-password error for the device. -/
def tookAuthFailure (run : Collected) (device : DeviceAccess) : Prop :=
  (awaitedCalls run.trace).length = 2 ∧
    run.err = some (device.Hostname ++ ": Bad login password.")

/-! ## Concrete sessions and devices used as examples -/

/-- An example heap: one map at every address, holding `pass` and `enable`. -/
def exHeap : Heap := fun _ => (StrMap.empty.set "pass" "pw").set "enable" "en"

/-- An example descriptor, as the drivers receive it. -/
def exDevice : DeviceAccess := ⟨"r1", "cisco", "r1", 60 * Second, some 0⟩

/-- An example session: it opens, answers `>` to every call, except that the
call of index 3 fails. -/
def exSessionFailing : Session :=
  ⟨fun _ => none, fun n => if n = 3 then ⟨"", some "Connection closed."⟩ else ⟨">", none⟩⟩

/-- An example session: it opens, every call succeeds, the branch returns the
unprivileged prompt and the capture returns a configuration text. -/
def exSessionEnable : Session :=
  ⟨fun _ => none, fun n => if n = 6 then ⟨"hostname r1\nend\n", none⟩ else ⟨">", none⟩⟩

/-- An example registry: `r1` was last collected successfully at time 1000. -/
def exStatus : Status := fun k => if k = "r1" then some ⟨"r1", "success", 1000⟩ else none

/-- An example state before an attempt. -/
def exState : State := ⟨exHeap, exStatus, [], [], []⟩

/-- An example world: the session of the privilege-escalation scenario, a driver
call that takes 90 seconds, and `time.ParseDuration` on the text `120s`. -/
def exWorld : World where
  parseDuration := fun s => if s = "120s" then some (120 * Second) else none
  session := exSessionEnable
  sessionElapsed := some (90 * Second)
  split := fun s => Except.ok [s]
  exec := fun _ => ⟨none, some Second, none, "", "", none⟩
  timerWinsTie := false
  writeFile := fun _ _ => none
  now := 5000

/-- Example options: a global timeout of 60 seconds and all defaults set. -/
def exOpts : SweetOptions := ⟨60 * Second, false, 1, "/opt/sweet", "admin", "secret", "cisco", []⟩

/-- An example descriptor with an access method that no collector implements. -/
def exDeviceTelnet : DeviceAccess := ⟨"r1", "telnet", "", 0, some 0⟩

/-- An example session: it opens and answers every call with the password
prompt, as a device does that rejects the login password. -/
def exSessionBadPassword : Session := ⟨fun _ => none, fun _ => ⟨"assword:", none⟩⟩

/-- An example world in which the login password is rejected after 5 seconds. -/
def exWorldBadPassword : World :=
  { exWorld with session := exSessionBadPassword, sessionElapsed := some (5 * Second) }

/-- An example heap whose maps also hold a `timeout` override of 120 seconds. -/
def exHeapTimeout : Heap :=
  fun _ => ((StrMap.empty.set "pass" "pw").set "enable" "en").set "timeout" "120"

/-- An example state before an attempt on a device with a `timeout` override. -/
def exStateTimeout : State := ⟨exHeapTimeout, exStatus, [], [], []⟩

/-- Example options whose inventory holds the example descriptor. -/
def exOptsInventory : SweetOptions := { exOpts with Devices := [exDevice] }

/-- An example state whose maps hold the device's own `pass` and no `enable`. -/
def exStateNoEnable : State := ⟨fun _ => StrMap.empty.set "pass" "pw", exStatus, [], [], []⟩

/-- An example state whose maps hold all credentials and a `timeout` entry that
is not a number. -/
def exStateBadTimeout : State :=
  ⟨fun _ => ((StrMap.empty.set "user" "u").set "pass" "pw").set "timeout" "soon",
    exStatus, [], [], []⟩

/-- An example descriptor for the external method; the example maps hold no
`script` entry. -/
def exDeviceExternal : DeviceAccess := ⟨"r1", "external", "", 0, some 0⟩

/-- An example session: it opens, every call succeeds, and the branch returns
the candidate `m`. -/
def exSessionBranch (m : String) : Session :=
  ⟨fun _ => none, fun n => if n = 1 then ⟨m, none⟩ else ⟨"", none⟩⟩

/-! ## Theorems -/

theorem cisco_trace_of_failure (s : Session) (h : Heap) (device : DeviceAccess)
    (step : Option Nat) (e : String)
    (hfail : firstFailure s (sshCommand h device) step e)
    (hreach : callsThrough step ≤ (awaitedCalls (Cisco.steps (mapVal h device.Config "pass")
      (mapVal h device.Config "enable") (s.resp 1).val)).length) :
    (Cisco.Collect s h device).err = some e ∧
    (Cisco.Collect s h device).trace = throughAwait (callsThrough step)
      (Cisco.steps (mapVal h device.Config "pass") (mapVal h device.Config "enable") (s.resp 1).val) := by
  cases step with
  | none =>
    simp only [firstFailure] at hfail
    simp [Cisco.Collect, newSSHCollector, hfail, callsThrough, throughAwait]
  | some k =>
    obtain ⟨hopen, hbefore, hk⟩ := hfail
    by_cases hm : (s.resp 1).val = "assword:"
    · simp [Cisco.steps, hm, awaitedCalls, callsThrough] at hreach
      have hk2 : k = 0 ∨ k = 1 := by omega
      rcases hk2 with rfl | rfl
      · simp [Cisco.Collect, newSSHCollector, hopen, expect, SSHCollector.call, hk,
          callsThrough, throughAwait, Cisco.steps]
      · have h0 := hbefore 0 (by omega)
        simp [Cisco.Collect, newSSHCollector, hopen, expect, expectMulti, SSHCollector.call,
          SSHCollector.Send, hk, h0, callsThrough, throughAwait, Cisco.steps]
    · by_cases hg : (s.resp 1).val = ">"
      · simp [Cisco.steps, hg, awaitedCalls, callsThrough] at hreach
        have hk7 : k = 0 ∨ k = 1 ∨ k = 2 ∨ k = 3 ∨ k = 4 ∨ k = 5 ∨ k = 6 := by omega
        have h0 := hbefore 0
        have h1 := hbefore 1
        have h2 := hbefore 2
        have h3 := hbefore 3
        have h4 := hbefore 4
        have h5 := hbefore 5
        rcases hk7 with rfl | rfl | rfl | rfl | rfl | rfl | rfl <;>
          simp at h0 h1 h2 h3 h4 h5 <;>
          simp [Cisco.Collect, newSSHCollector, hopen, expect, expectMulti, timeoutSave,
            SSHCollector.call, SSHCollector.Send, hk, h0, h1, h2, h3, h4, h5, hg,
            callsThrough, throughAwait, Cisco.steps]
      · simp [Cisco.steps, hg, hm, awaitedCalls, callsThrough] at hreach
        have hk5 : k = 0 ∨ k = 1 ∨ k = 2 ∨ k = 3 ∨ k = 4 := by omega
        have h0 := hbefore 0
        have h1 := hbefore 1
        have h2 := hbefore 2
        have h3 := hbefore 3
        rcases hk5 with rfl | rfl | rfl | rfl | rfl <;>
          simp at h0 h1 h2 h3 <;>
          simp [Cisco.Collect, newSSHCollector, hopen, expect, expectMulti, timeoutSave,
            SSHCollector.call, SSHCollector.Send, hk, h0, h1, h2, h3, hg, hm,
            callsThrough, throughAwait, Cisco.steps]

theorem junos_trace_of_failure (s : Session) (h : Heap) (device : DeviceAccess)
    (step : Option Nat) (e : String)
    (hfail : firstFailure s (sshCommand h device) step e)
    (hreach : callsThrough step ≤
      (awaitedCalls (JunOS.steps (mapVal h device.Config "pass") (s.resp 1).val)).length) :
    (JunOS.Collect s h device).err = some e ∧
    (JunOS.Collect s h device).trace = throughAwait (callsThrough step)
      (JunOS.steps (mapVal h device.Config "pass") (s.resp 1).val) := by
  cases step with
  | none =>
    simp only [firstFailure] at hfail
    simp [JunOS.Collect, newSSHCollector, hfail, callsThrough, throughAwait]
  | some k =>
    obtain ⟨hopen, hbefore, hk⟩ := hfail
    by_cases hm : (s.resp 1).val = "assword:"
    · simp [JunOS.steps, hm, awaitedCalls, callsThrough] at hreach
      have hk2 : k = 0 ∨ k = 1 := by omega
      rcases hk2 with rfl | rfl
      · simp [JunOS.Collect, newSSHCollector, hopen, expect, SSHCollector.call, hk,
          callsThrough, throughAwait, JunOS.steps]
      · have h0 := hbefore 0 (by omega)
        simp [JunOS.Collect, newSSHCollector, hopen, expect, expectMulti, SSHCollector.call,
          SSHCollector.Send, hk, h0, callsThrough, throughAwait, JunOS.steps]
    · simp [JunOS.steps, hm, awaitedCalls, callsThrough] at hreach
      have hk4 : k = 0 ∨ k = 1 ∨ k = 2 ∨ k = 3 := by omega
      have h0 := hbefore 0
      have h1 := hbefore 1
      have h2 := hbefore 2
      rcases hk4 with rfl | rfl | rfl | rfl <;>
        simp at h0 h1 h2 <;>
        simp [JunOS.Collect, newSSHCollector, hopen, expect, expectMulti, timeoutSave,
          SSHCollector.call, SSHCollector.Send, hk, h0, h1, h2, hm,
          callsThrough, throughAwait, JunOS.steps]

/-- C3: when a step of `Cisco.Collect` or `JunOS.Collect` fails (the opening of
the session, or a call of `expect`, `expectMulti` or `timeoutSave` that the run
reaches), `Collect` returns exactly the error of that step, and what the driver
did to its session is exactly the source-order steps up to and including the
failing call: the strings sent are those of the steps before it, and nothing is
sent or awaited after it. -/
theorem collect_aborts_at_failing_step (s : Session) (h : Heap) (device : DeviceAccess)
    (step : Option Nat) (e : String)
    (hfail : firstFailure s (sshCommand h device) step e) :
    (callsThrough step ≤ (awaitedCalls (Cisco.steps (mapVal h device.Config "pass")
        (mapVal h device.Config "enable") (s.resp 1).val)).length →
      (Cisco.Collect s h device).err = some e ∧
      (Cisco.Collect s h device).trace = throughAwait (callsThrough step)
        (Cisco.steps (mapVal h device.Config "pass") (mapVal h device.Config "enable") (s.resp 1).val) ∧
      sentStrings (Cisco.Collect s h device).trace = sentStrings (throughAwait (callsThrough step)
        (Cisco.steps (mapVal h device.Config "pass") (mapVal h device.Config "enable") (s.resp 1).val))) ∧
    (callsThrough step ≤
        (awaitedCalls (JunOS.steps (mapVal h device.Config "pass") (s.resp 1).val)).length →
      (JunOS.Collect s h device).err = some e ∧
      (JunOS.Collect s h device).trace = throughAwait (callsThrough step)
        (JunOS.steps (mapVal h device.Config "pass") (s.resp 1).val) ∧
      sentStrings (JunOS.Collect s h device).trace = sentStrings (throughAwait (callsThrough step)
        (JunOS.steps (mapVal h device.Config "pass") (s.resp 1).val))) := by
  constructor
  · intro hreach
    obtain ⟨h1, h2⟩ := cisco_trace_of_failure s h device step e hfail hreach
    exact ⟨h1, h2, by rw [h2]⟩
  · intro hreach
    obtain ⟨h1, h2⟩ := junos_trace_of_failure s h device step e hfail hreach
    exact ⟨h1, h2, by rw [h2]⟩

theorem collect_aborts_at_failing_step_witness :
    firstFailure exSessionFailing (sshCommand exHeap exDevice) (some 3) "Connection closed." ∧
    (Cisco.Collect exSessionFailing exHeap exDevice).err = some "Connection closed." ∧
    sentStrings (Cisco.Collect exSessionFailing exHeap exDevice).trace =
      ["pw\n", "enable\n", "en\n"] ∧
    (JunOS.Collect exSessionFailing exHeap exDevice).err = some "Connection closed." ∧
    sentStrings (JunOS.Collect exSessionFailing exHeap exDevice).trace =
      ["pw\n", "set cli screen-length 0\n", "show configuration\n"] := by
  have hfail : firstFailure exSessionFailing (sshCommand exHeap exDevice) (some 3)
      "Connection closed." := by
    refine ⟨rfl, ?_, rfl⟩
    intro i hi
    have : i ≠ 3 := by omega
    simp [exSessionFailing, this]
  have key := collect_aborts_at_failing_step exSessionFailing exHeap exDevice (some 3)
    "Connection closed." hfail
  obtain ⟨hc, hj⟩ := key
  have hc2 := hc (by decide)
  have hj2 := hj (by decide)
  refine ⟨hfail, hc2.1, ?_, hj2.1, ?_⟩
  · rw [hc2.2.2]; decide
  · rw [hj2.2.2]; decide

/-- C9: privilege-escalation scenario of `Cisco.Collect`.  When the session
opens, every helper call succeeds, the branch after the login password returns
the unprivileged prompt `>` and the capture (the seventh call, `timeoutSave`)
returns `T`, the strings sent are `pass`, `enable`, the enable secret, the two
pager commands, the dump command and `exit`, each with its newline and in this
order, and `Collect` returns without error the result whose only entry is
`"config"` with value `T`. -/
theorem cisco_enable_scenario (s : Session) (h : Heap) (device : DeviceAccess) (T : String)
    (hopen : s.start (sshCommand h device) = none)
    (hok : ∀ n, (s.resp n).err = none)
    (hbranch : (s.resp 1).val = ">")
    (hcapture : (s.resp 6).val = T) :
    awaitedCalls (Cisco.Collect s h device).trace =
      [Call.expect "assword:", Call.expectMulti ["#", ">", "assword:"],
        Call.expect "assword:", Call.expect "#", Call.expect "#", Call.expect "#",
        Call.timeoutSave (2 * Second)] ∧
    sentStrings (Cisco.Collect s h device).trace =
      [mapVal h device.Config "pass" ++ "\n", "enable\n", mapVal h device.Config "enable" ++ "\n",
        "terminal length 0\n", "terminal pager 0\n", "show running-config\n", "exit\n"] ∧
    (Cisco.Collect s h device).err = none ∧
    (Cisco.Collect s h device).result "config" = some T ∧
    (Cisco.Collect s h device).result = StrMap.empty.set "config" T := by
  simp [Cisco.Collect, newSSHCollector, hopen, expect, expectMulti, timeoutSave,
    SSHCollector.call, SSHCollector.Send, hok, hbranch, hcapture, awaitedCalls, sentStrings,
    StrMap.set]

theorem cisco_enable_scenario_witness :
    sentStrings (Cisco.Collect exSessionEnable exHeap exDevice).trace =
      ["pw\n", "enable\n", "en\n", "terminal length 0\n", "terminal pager 0\n",
        "show running-config\n", "exit\n"] ∧
    (Cisco.Collect exSessionEnable exHeap exDevice).err = none ∧
    (Cisco.Collect exSessionEnable exHeap exDevice).result "config" =
      some "hostname r1\nend\n" := by
  have key := cisco_enable_scenario exSessionEnable exHeap exDevice "hostname r1\nend\n"
    rfl (by intro n; simp only [exSessionEnable]; split <;> rfl) rfl rfl
  refine ⟨?_, key.2.2.1, key.2.2.2.1⟩
  rw [key.2.1]; decide

/-! ### Frame lemmas of settings resolution -/

theorem resolveSettings_ok_frame (w : World) (Opts : SweetOptions) (device dev : DeviceAccess)
    (st st1 : State) (hres : resolveSettings w Opts device st = Except.ok (dev, st1)) :
    dev.Hostname = device.Hostname ∧ dev.Config = device.Config ∧ st1.status = st.status ∧
    st1.done = st.done ∧ st1.files = st.files ∧ st1.errLog = st.errLog := by
  unfold resolveSettings at hres
  simp only [LogFatal] at hres
  repeat' first
    | split at hres
    | contradiction
  all_goals
    simp at hres
    obtain ⟨rfl, rfl⟩ := hres
    simp

theorem chooseCollector_ok_frame (Opts : SweetOptions) (device : DeviceAccess)
    (st st2 : State) (c : Option Collector)
    (hcol : chooseCollector Opts device st = Except.ok (c, st2)) :
    st2.status = st.status ∧ st2.done = st.done ∧ st2.files = st.files ∧
    st2.errLog = st.errLog := by
  unfold chooseCollector at hcol
  by_cases h1 : device.Method = "external"
  · simp only [h1, if_true] at hcol
    cases h2 : mapSet st.heap device.Config "scriptPath" (mapVal st.heap device.Config "script") with
    | none => simp [h2] at hcol
    | some heap =>
      simp only [h2] at hcol
      cases h3 : firstByteIsNot (mapVal heap device.Config "script") PathSeparator with
      | none => simp [h3] at hcol
      | some relative =>
        simp only [h3] at hcol
        cases relative with
        | false =>
          simp at hcol
          obtain ⟨_, rfl⟩ := hcol
          simp
        | true =>
          simp only [if_true] at hcol
          cases h4 : mapSet heap device.Config "scriptPath" (Opts.ExecutableDir ++
              String.singleton PathSeparator ++ mapVal heap device.Config "script") with
          | none => simp [h4] at hcol
          | some heap2 =>
            simp [h4] at hcol
            obtain ⟨_, rfl⟩ := hcol
            simp
  · simp only [h1, if_false] at hcol
    split at hcol
    · simp at hcol
      obtain ⟨_, rfl⟩ := hcol
      simp
    · split at hcol <;>
      · simp at hcol
        obtain ⟨_, rfl⟩ := hcol
        simp

theorem status_get_set (s : Status) (stat : DeviceStatus) :
    (s.Set stat).Get stat.Hostname = stat := by
  simp [Status.Get, Status.Set]

theorem attempt_failure_outcome (w : World) (Opts : SweetOptions) (device dev : DeviceAccess)
    (st st1 st2 : State) (c : Option Collector) (msg : String)
    (hres : resolveSettings w Opts device st = Except.ok (dev, st1))
    (hcol : chooseCollector Opts dev st1 = Except.ok (c, st2))
    (hf : AttemptFailure w Opts dev st2.heap c msg) :
    ∃ st', collectDevice w Opts device st = Outcome.returned st' ∧
      st'.status = st.status.Set ⟨device.Hostname, msg, 0⟩ ∧
      st'.status.Get device.Hostname = ⟨device.Hostname, msg, 0⟩ ∧
      (∀ k, k ≠ device.Hostname → st'.status k = st.status k) := by
  obtain ⟨hh, -, hs1, -, -, -⟩ := resolveSettings_ok_frame w Opts device dev st st1 hres
  obtain ⟨hs2, -, -, -⟩ := chooseCollector_ok_frame Opts dev st1 st2 c hcol
  have key : ∃ st', collectDevice w Opts device st = Outcome.returned st' ∧
      st'.status = st.status.Set ⟨device.Hostname, msg, 0⟩ := by
    cases hf with
    | unknownMethod =>
      simp only [collectDevice, hres, hcol]
      refine ⟨_, rfl, ?_⟩
      simp [LogErr, hs2, hs1, hh, DeviceStatus.zero]
    | timeout c run hrun htimer =>
      simp only [collectDevice, hres, hcol, hrun, htimer, if_true]
      refine ⟨_, rfl, ?_⟩
      simp [LogErr, hs2, hs1, hh, DeviceStatus.zero]
    | driverError c run err hrun htimer herr =>
      simp only [collectDevice, hres, hcol, hrun, htimer, herr]
      refine ⟨_, rfl, ?_⟩
      simp [LogErr, hs2, hs1, hh, DeviceStatus.zero]
    | configMissing c run hrun htimer herr hcfg =>
      simp only [collectDevice, hres, hcol, hrun, htimer, herr, hcfg]
      refine ⟨_, rfl, ?_⟩
      simp [LogErr, hs2, hs1, hh, DeviceStatus.zero]
  obtain ⟨st', hrun, hstatus⟩ := key
  refine ⟨st', hrun, hstatus, ?_, ?_⟩
  · rw [hstatus]
    exact status_get_set st.status ⟨device.Hostname, msg, 0⟩
  · intro k hk
    rw [hstatus]
    simp [Status.Set, hk]

/-- C1 (amended): when an attempt ends in a per-device failure (unknown access
method, timeout, driver error, or result without a `"config"` key),
`collectDevice` returns, and the registry afterwards is the registry before with
the entry of the hostname replaced whole by the hostname, the failure message
and the zero timestamp; the entries of the other hostnames are unchanged. -/
theorem failure_replaces_entry (w : World) (Opts : SweetOptions) (device dev : DeviceAccess)
    (st st1 st2 : State) (c : Option Collector) (msg : String)
    (hres : resolveSettings w Opts device st = Except.ok (dev, st1))
    (hcol : chooseCollector Opts dev st1 = Except.ok (c, st2))
    (hf : AttemptFailure w Opts dev st2.heap c msg) :
    ∃ st', collectDevice w Opts device st = Outcome.returned st' ∧
      st'.status = st.status.Set ⟨device.Hostname, msg, 0⟩ ∧
      st'.status.Get device.Hostname = ⟨device.Hostname, msg, 0⟩ ∧
      (∀ k, k ≠ device.Hostname → st'.status k = st.status k) :=
  attempt_failure_outcome w Opts device dev st st1 st2 c msg hres hcol hf

theorem failure_replaces_entry_witness :
    ∃ st', collectDevice exWorld exOpts exDeviceTelnet exState = Outcome.returned st' ∧
      st'.status.Get "r1" = ⟨"r1", "Unknown access method: telnet", 0⟩ := by
  have hres : ∃ st1, resolveSettings exWorld exOpts exDeviceTelnet exState =
      Except.ok (⟨"r1", "telnet", "r1", 60 * Second, some 0⟩, st1) := ⟨_, rfl⟩
  obtain ⟨st1, hres⟩ := hres
  have hcol : chooseCollector exOpts ⟨"r1", "telnet", "r1", 60 * Second, some 0⟩ st1 =
      Except.ok (none, st1) := by
    simp [chooseCollector]
  obtain ⟨st', h1, -, h3, -⟩ := failure_replaces_entry exWorld exOpts exDeviceTelnet _ exState
    st1 st1 none _ hres hcol AttemptFailure.unknownMethod
  exact ⟨st', h1, h3⟩

/-- C1 (as stated) fails: `r1` has a registry entry with last success at time
1000; an attempt with the unknown access method `telnet` ends in a failure, and
afterwards the entry holds the failure message and the zero timestamp, not the
timestamp 1000 it held before. -/
theorem failure_resets_last_success :
    (exState.status.Get "r1").LastSuccess = 1000 ∧
    ∃ st', collectDevice exWorld exOpts exDeviceTelnet exState = Outcome.returned st' ∧
      (st'.status.Get "r1").Message = "Unknown access method: telnet" ∧
      (st'.status.Get "r1").LastSuccess = 0 ∧
      (st'.status.Get "r1").LastSuccess ≠ (exState.status.Get "r1").LastSuccess := by
  refine ⟨by decide, _, rfl, by decide, by decide, by decide⟩

theorem cisco_bad_password (s : Session) (h : Heap) (device : DeviceAccess)
    (hopen : s.start (sshCommand h device) = none) (hprompt : (s.resp 0).err = none)
    (hbranch : (s.resp 1).err = none ∧ (s.resp 1).val = "assword:") :
    (Cisco.Collect s h device).err = some (device.Hostname ++ ": Bad login password.") := by
  simp [Cisco.Collect, newSSHCollector, hopen, expect, expectMulti, SSHCollector.call,
    SSHCollector.Send, hprompt, hbranch.1, hbranch.2]

theorem junos_bad_password (s : Session) (h : Heap) (device : DeviceAccess)
    (hopen : s.start (sshCommand h device) = none) (hprompt : (s.resp 0).err = none)
    (hbranch : (s.resp 1).err = none ∧ (s.resp 1).val = "assword:") :
    (JunOS.Collect s h device).err = some (device.Hostname ++ ": Bad login password.") := by
  simp [JunOS.Collect, newSSHCollector, hopen, expect, expectMulti, SSHCollector.call,
    SSHCollector.Send, hprompt, hbranch.1, hbranch.2]

/-- C4 (amended): authentication-failure scenario.  For a device whose resolved
method is `cisco` or `junos`, when the session opens, the password prompt is
found and the branch after the login password returns the repeated password
prompt `assword:`, both drivers return the error `<hostname>: Bad login
password.`; and when the driver returns before the timer of the race fires,
`collectDevice` records for the hostname the entry whose message is that text,
the hostname followed by `: Bad login password.`, with the zero timestamp. -/
theorem bad_password_recorded (w : World) (Opts : SweetOptions) (device dev : DeviceAccess)
    (st st1 : State)
    (hres : resolveSettings w Opts device st = Except.ok (dev, st1))
    (hmethod : dev.Method = "cisco" ∨ dev.Method = "junos")
    (hopen : w.session.start (sshCommand st1.heap dev) = none)
    (hprompt : (w.session.resp 0).err = none)
    (hbranch : (w.session.resp 1).err = none ∧ (w.session.resp 1).val = "assword:")
    (hrace : timerFirst Opts.Timeout w.sessionElapsed w.timerWinsTie = false) :
    (Cisco.Collect w.session st1.heap dev).err =
      some (device.Hostname ++ ": Bad login password.") ∧
    (JunOS.Collect w.session st1.heap dev).err =
      some (device.Hostname ++ ": Bad login password.") ∧
    ∃ st', collectDevice w Opts device st = Outcome.returned st' ∧
      st'.status.Get device.Hostname =
        ⟨device.Hostname, device.Hostname ++ ": Bad login password.", 0⟩ := by
  obtain ⟨hh, -⟩ := resolveSettings_ok_frame w Opts device dev st st1 hres
  have hc := cisco_bad_password w.session st1.heap dev hopen hprompt hbranch
  have hj := junos_bad_password w.session st1.heap dev hopen hprompt hbranch
  rw [hh] at hc hj
  refine ⟨hc, hj, ?_⟩
  rcases hmethod with hm | hm
  · have hcol : chooseCollector Opts dev st1 = Except.ok (some Collector.Cisco, st1) := by
      simp [chooseCollector, hm]
    obtain ⟨st', h1, -, h3, -⟩ := attempt_failure_outcome w Opts device dev st st1 st1 _ _ hres
      hcol (AttemptFailure.driverError Collector.Cisco _ _ rfl hrace hc)
    exact ⟨st', h1, h3⟩
  · have hcol : chooseCollector Opts dev st1 = Except.ok (some Collector.JunOS, st1) := by
      simp [chooseCollector, hm]
    obtain ⟨st', h1, -, h3, -⟩ := attempt_failure_outcome w Opts device dev st st1 st1 _ _ hres
      hcol (AttemptFailure.driverError Collector.JunOS _ _ rfl hrace hj)
    exact ⟨st', h1, h3⟩

theorem bad_password_recorded_witness :
    ∃ st', collectDevice exWorldBadPassword exOpts exDevice exState = Outcome.returned st' ∧
      st'.status.Get "r1" = ⟨"r1", "r1: Bad login password.", 0⟩ := by
  have hres : ∃ st1, resolveSettings exWorldBadPassword exOpts exDevice exState =
      Except.ok (⟨"r1", "cisco", "r1", 60 * Second, some 0⟩, st1) := ⟨_, rfl⟩
  obtain ⟨st1, hres⟩ := hres
  exact (bad_password_recorded exWorldBadPassword exOpts exDevice _ exState st1 hres
    (Or.inl rfl) rfl rfl ⟨rfl, rfl⟩ (by decide)).2.2

/-- C4 (as stated) fails: for the device `r1` whose login password is rejected,
the entry recorded by `collectDevice` has the message `r1: Bad login password.`,
which is not the text `Bad login password.`. -/
theorem bad_password_message_has_hostname :
    (Cisco.Collect exSessionBadPassword exHeap exDevice).err = some "r1: Bad login password." ∧
    ∃ st', collectDevice exWorldBadPassword exOpts exDevice exState = Outcome.returned st' ∧
      (st'.status.Get "r1").Message = "r1: Bad login password." ∧
      (st'.status.Get "r1").Message ≠ "Bad login password." := by
  refine ⟨by decide, _, rfl, by decide, by decide⟩

/-- C5 (the code departs from the claim): the device `r1` has the `timeout`
override 120, the global timeout is 60 seconds and the driver returns a
configuration after 90 seconds.  The effective timeout of the device is 120
seconds, against which the driver would win the race; `collectDevice` races the
driver against the global 60 seconds instead, and records a timeout whose
message reports 120 seconds. -/
theorem race_ignores_device_timeout :
    deviceTimeout exWorld exOpts exStateTimeout.heap exDevice.Config = some (120 * Second) ∧
    exOpts.Timeout = 60 * Second ∧
    exWorld.sessionElapsed = some (90 * Second) ∧
    timerFirst (120 * Second) exWorld.sessionElapsed exWorld.timerWinsTie = false ∧
    (Cisco.Collect exWorld.session exStateTimeout.heap exDevice).err = none ∧
    ∃ st', collectDevice exWorld exOpts exDevice exStateTimeout = Outcome.returned st' ∧
      st'.status.Get "r1" = ⟨"r1", "Timeout collecting from r1 after 120 seconds", 0⟩ := by
  refine ⟨by decide, by decide, rfl, by decide, by decide, _, rfl, by decide⟩

/-! ### What an attempt writes to the heap -/

theorem Writes.refl (config : Option Nat) (h : Heap) : Writes config h h :=
  fun _ _ => Or.inl rfl

theorem Writes.trans {config : Option Nat} {h h' h'' : Heap}
    (h1 : Writes config h h') (h2 : Writes config h' h'') : Writes config h h'' := by
  intro a k
  rcases h2 a k with e2 | ⟨hc, hk⟩
  · rw [e2]; exact h1 a k
  · rcases h1 a k with e1 | ⟨_, hk1⟩
    · rcases hk with hk | ⟨hk, hn⟩
      · exact Or.inr ⟨hc, Or.inl hk⟩
      · exact Or.inr ⟨hc, Or.inr ⟨hk, by rw [← e1]; exact hn⟩⟩
    · exact Or.inr ⟨hc, hk1⟩

theorem writes_fill {config : Option Nat} {h h' : Heap} {k v : String}
    (hk : k ∈ filledKeys)
    (e : (if (mapGet h config k).isSome = true then some h else mapSet h config k v) = some h') :
    Writes config h h' := by
  by_cases hp : (mapGet h config k).isSome = true
  · simp [hp] at e
    subst e
    exact Writes.refl _ _
  · simp only [hp] at e
    cases config with
    | none => simp [mapSet] at e
    | some c =>
      simp [mapSet] at e
      subst e
      intro a k'
      by_cases ha : a = c
      · by_cases hk' : k' = k
        · subst ha; subst hk'
          right
          refine ⟨rfl, Or.inr ⟨hk, ?_⟩⟩
          simpa [mapGet] using hp
        · left; simp [ha, StrMap.set, hk']
      · left; simp [ha]

theorem writes_set {config : Option Nat} {h h' : Heap} {k v : String}
    (hk : k ∈ ["insecure", "scriptPath"]) (e : mapSet h config k v = some h') :
    Writes config h h' := by
  cases config with
  | none => simp [mapSet] at e
  | some c =>
    simp [mapSet] at e
    subst e
    intro a k'
    by_cases ha : a = c
    · by_cases hk' : k' = k
      · subst ha; subst hk'
        exact Or.inr ⟨rfl, Or.inl hk⟩
      · left; simp [ha, StrMap.set, hk']
    · left; simp [ha]

theorem writes_insecure {config : Option Nat} {h h' : Heap} {b : Bool}
    (e : (if b = true then mapSet h config "insecure" "true" else some h) = some h') :
    Writes config h h' := by
  cases b with
  | false =>
    simp at e
    subst e
    exact Writes.refl _ _
  | true =>
    have e' : mapSet h config "insecure" "true" = some h' := by simpa using e
    exact writes_set (List.mem_cons_self _ _) e'

theorem writes_user {config : Option Nat} {h h' : Heap} {v : String}
    (e : (if (mapGet h config "user").isSome = true then some h
      else mapSet h config "user" v) = some h') : Writes config h h' :=
  writes_fill (by decide) e

theorem writes_pass {config : Option Nat} {h h' : Heap} {v : String}
    (e : (if (mapGet h config "pass").isSome = true then some h
      else mapSet h config "pass" v) = some h') : Writes config h h' :=
  writes_fill (by decide) e

theorem writes_enable {config : Option Nat} {h h' : Heap} {v : String}
    (e : (if (mapGet h config "enable").isSome = true then some h
      else mapSet h config "enable" v) = some h') : Writes config h h' :=
  writes_fill (by decide) e

theorem resolveSettings_writes (w : World) (Opts : SweetOptions) (device : DeviceAccess)
    (st : State) :
    Writes device.Config st.heap (stateOf (resolveSettings w Opts device st)).heap := by
  unfold resolveSettings
  simp only [LogFatal]
  repeat' split
  all_goals
    simp only [stateOf, Outcome.state]
    repeat first
      | exact Writes.refl _ _
      | refine Writes.trans ?_ (writes_insecure ‹_›)
      | refine Writes.trans ?_ (writes_enable ‹_›)
      | refine Writes.trans ?_ (writes_pass ‹_›)
      | refine Writes.trans ?_ (writes_user ‹_›)

theorem chooseCollector_writes (Opts : SweetOptions) (device : DeviceAccess) (st : State) :
    Writes device.Config st.heap (stateOf (chooseCollector Opts device st)).heap := by
  unfold chooseCollector
  by_cases h1 : device.Method = "external"
  · simp only [h1, if_true]
    cases h2 : mapSet st.heap device.Config "scriptPath" (mapVal st.heap device.Config "script") with
    | none => exact Writes.refl _ _
    | some heap =>
      have W1 : Writes device.Config st.heap heap := writes_set (by decide) h2
      simp only []
      cases h3 : firstByteIsNot (mapVal heap device.Config "script") PathSeparator with
      | none => exact W1
      | some relative =>
        cases relative with
        | false => exact W1
        | true =>
          simp only [if_true]
          cases h4 : mapSet heap device.Config "scriptPath" (Opts.ExecutableDir ++
              String.singleton PathSeparator ++ mapVal heap device.Config "script") with
          | none => exact W1
          | some heap2 => exact Writes.trans W1 (writes_set (by decide) h4)
  · simp only [h1, if_false]
    repeat' split
    all_goals exact Writes.refl _ _

theorem collectDevice_writes (w : World) (Opts : SweetOptions) (device : DeviceAccess)
    (st : State) :
    Writes device.Config st.heap (collectDevice w Opts device st).state.heap := by
  have W1 := resolveSettings_writes w Opts device st
  unfold collectDevice
  cases hres : resolveSettings w Opts device st with
  | error out =>
    rw [hres] at W1
    exact W1
  | ok r =>
    obtain ⟨dev, st1⟩ := r
    rw [hres] at W1
    obtain ⟨-, hc, -⟩ := resolveSettings_ok_frame w Opts device dev st st1 hres
    have W2 := chooseCollector_writes Opts dev st1
    rw [hc] at W2
    simp only []
    cases hcol : chooseCollector Opts dev st1 with
    | error out =>
      rw [hcol] at W2
      exact Writes.trans W1 W2
    | ok r2 =>
      obtain ⟨c, st2⟩ := r2
      rw [hcol] at W2
      have W := Writes.trans W1 W2
      simp only [stateOf] at W
      cases c with
      | none => exact W
      | some c =>
        simp only [LogFatal, LogErr]
        repeat' split
        all_goals exact W

/-- C6 (amended): an attempt of `collectDevice` changes `Method`, `Timeout` and
`Target` on its own copy of the descriptor only, but the `Config` bag is the
map shared with the inventory and the fills are written into it.  For every
descriptor `d` of the inventory and every key `k`, however the attempt ends: the
bag of `d` is unchanged at `k` when `d` does not share the bag of the attempted
device or when `k` is none of `user`, `pass`, `enable`, `insecure`,
`scriptPath`; and `user`, `pass` and `enable` keep their value when present. -/
theorem attempt_writes_shared_config (w : World) (Opts : SweetOptions) (device : DeviceAccess)
    (st : State) (d : DeviceAccess) (_hd : d ∈ Opts.Devices) (k : String) :
    (d.Config ≠ device.Config ∨ k ∉ writtenKeys →
      mapGet (collectDevice w Opts device st).state.heap d.Config k =
        mapGet st.heap d.Config k) ∧
    (k ∈ filledKeys → (mapGet st.heap d.Config k).isSome = true →
      mapGet (collectDevice w Opts device st).state.heap d.Config k =
        mapGet st.heap d.Config k) := by
  have W := collectDevice_writes w Opts device st
  cases hc : d.Config with
  | none => simp [mapGet]
  | some a =>
    simp only [mapGet]
    rcases W a k with e | ⟨hcfg, hk⟩
    · exact ⟨fun _ => e, fun _ _ => e⟩
    · constructor
      · intro h
        rcases h with h | h
        · exact absurd hcfg.symm h
        · exfalso
          apply h
          rcases hk with hk | ⟨hk, -⟩
          · simp only [writtenKeys]
            simp only [List.mem_cons, List.mem_singleton, List.not_mem_nil, or_false] at hk ⊢
            tauto
          · simp only [writtenKeys, filledKeys] at hk ⊢
            simp only [List.mem_cons, List.mem_singleton, List.not_mem_nil, or_false] at hk ⊢
            tauto
      · intro hk' hsome
        rcases hk with hk | ⟨-, hn⟩
        · exfalso
          simp only [filledKeys, List.mem_cons, List.mem_singleton, List.not_mem_nil,
            or_false] at hk hk'
          rcases hk with rfl | rfl <;> simp at hk'
        · simp [mapGet, hn] at hsome

theorem attempt_writes_shared_config_witness :
    exDevice ∈ exOptsInventory.Devices ∧
    mapGet (collectDevice exWorld exOptsInventory exDevice exState).state.heap exDevice.Config
      "pass" = some "pw" := by
  have hd : exDevice ∈ exOptsInventory.Devices := List.mem_cons_self _ _
  refine ⟨hd, ?_⟩
  rw [(attempt_writes_shared_config exWorld exOptsInventory exDevice exState exDevice hd
    "pass").2 (by decide) (by decide)]
  decide

/-- C6 (as stated) fails: the inventory holds the descriptor `r1` whose `Config`
bag has no `user` entry; after an attempt on `r1` the bag of that inventory
descriptor holds `user`, filled with the default user. -/
theorem attempt_changes_inventory_config :
    exDevice ∈ exOptsInventory.Devices ∧
    mapGet exState.heap exDevice.Config "user" = none ∧
    mapGet (collectDevice exWorld exOptsInventory exDevice exState).state.heap exDevice.Config
      "user" = some "admin" := by
  refine ⟨List.mem_cons_self _ _, by decide, by decide⟩

set_option maxHeartbeats 4000000 in
theorem resolveSettings_allocated (w : World) (Opts : SweetOptions) (device : DeviceAccess)
    (st : State) (a : Nat) (hcfg : device.Config = some a) :
    ((device.Method = "" ∧ Opts.DefaultMethod = "") ∨
        deviceTimeout w Opts st.heap device.Config = none ∨
        (st.heap a "user" = none ∧ Opts.DefaultUser = "") ∨
        (st.heap a "pass" = none ∧ Opts.DefaultPass = "") →
      ∃ msg st', resolveSettings w Opts device st = Except.error (Outcome.fatal msg st')) ∧
    (¬ ((device.Method = "" ∧ Opts.DefaultMethod = "") ∨
        deviceTimeout w Opts st.heap device.Config = none ∨
        (st.heap a "user" = none ∧ Opts.DefaultUser = "") ∨
        (st.heap a "pass" = none ∧ Opts.DefaultPass = "")) →
      ∃ dev st', resolveSettings w Opts device st = Except.ok (dev, st') ∧
        dev.Hostname = device.Hostname ∧
        dev.Method = (if device.Method = "" then Opts.DefaultMethod else device.Method) ∧
        mapGet st'.heap dev.Config "user" = some ((st.heap a "user").getD Opts.DefaultUser) ∧
        mapGet st'.heap dev.Config "pass" = some ((st.heap a "pass").getD Opts.DefaultPass) ∧
        mapGet st'.heap dev.Config "enable" =
          some ((st.heap a "enable").getD ((st.heap a "pass").getD Opts.DefaultPass)) ∧
        dev.Target = (st.heap a "ip").getD device.Hostname) := by
  obtain ⟨hostname, method, target, tmo, config⟩ := device
  simp only at hcfg
  subst hcfg
  by_cases hm : method = "" ∧ Opts.DefaultMethod = ""
  · simp [resolveSettings, hm, LogFatal]
  cases ht : deviceTimeout w Opts st.heap (some a) with
  | none => simp [resolveSettings, hm, ht, LogFatal]
  | some timeout =>
    cases hu : st.heap a "user" <;> cases hp : st.heap a "pass" <;>
      cases he : st.heap a "enable" <;> cases hip : st.heap a "ip" <;>
      cases hins : Opts.Insecure <;>
      by_cases hdu : Opts.DefaultUser = "" <;> by_cases hdp : Opts.DefaultPass = "" <;>
      simp [resolveSettings, hm, ht, mapGet, mapSet, mapVal, StrMap.set, LogFatal,
        hu, hp, he, hip, hins, hdu, hdp] <;>
      (try (refine ⟨_, _, ⟨rfl, rfl⟩, ?_⟩; simp [StrMap.set, hu, hp, he, hip]))

/-- C7 (amended): settings resolution for a device whose `Config` bag is
allocated.  It ends in a fatal configuration error when the method is empty and
no default method is set, or the `timeout` entry does not parse, or the device
has no `user` and no default user is set, or no `pass` and no default pass is
set.  Otherwise it yields the effective settings: method, `user` and `pass` are
the device's own value when present and the process-wide default when absent;
`enable` is the device's own value when present and the effective `pass` when
absent; the target is the `ip` entry when present and the hostname otherwise. -/
theorem settings_resolution (w : World) (Opts : SweetOptions) (device : DeviceAccess)
    (st : State) (a : Nat) (hcfg : device.Config = some a) :
    ((device.Method = "" ∧ Opts.DefaultMethod = "") ∨
        deviceTimeout w Opts st.heap device.Config = none ∨
        (st.heap a "user" = none ∧ Opts.DefaultUser = "") ∨
        (st.heap a "pass" = none ∧ Opts.DefaultPass = "") →
      ∃ msg st', resolveSettings w Opts device st = Except.error (Outcome.fatal msg st')) ∧
    (¬ ((device.Method = "" ∧ Opts.DefaultMethod = "") ∨
        deviceTimeout w Opts st.heap device.Config = none ∨
        (st.heap a "user" = none ∧ Opts.DefaultUser = "") ∨
        (st.heap a "pass" = none ∧ Opts.DefaultPass = "")) →
      ∃ dev st', resolveSettings w Opts device st = Except.ok (dev, st') ∧
        dev.Hostname = device.Hostname ∧
        dev.Method = (if device.Method = "" then Opts.DefaultMethod else device.Method) ∧
        mapGet st'.heap dev.Config "user" = some ((st.heap a "user").getD Opts.DefaultUser) ∧
        mapGet st'.heap dev.Config "pass" = some ((st.heap a "pass").getD Opts.DefaultPass) ∧
        mapGet st'.heap dev.Config "enable" =
          some ((st.heap a "enable").getD ((st.heap a "pass").getD Opts.DefaultPass)) ∧
        dev.Target = (st.heap a "ip").getD device.Hostname) :=
  resolveSettings_allocated w Opts device st a hcfg

theorem settings_resolution_witness :
    ∃ dev st', resolveSettings exWorld exOpts exDevice exStateNoEnable = Except.ok (dev, st') ∧
      dev.Method = "cisco" ∧
      mapGet st'.heap dev.Config "user" = some "admin" ∧
      mapGet st'.heap dev.Config "pass" = some "pw" ∧
      mapGet st'.heap dev.Config "enable" = some "pw" ∧
      dev.Target = "r1" := by
  obtain ⟨dev, st', h1, -, h3, h4, h5, h6, h7⟩ :=
    (settings_resolution exWorld exOpts exDevice exStateNoEnable 0 rfl).2 (by decide)
  exact ⟨dev, st', h1, h3, h4, h5, h6, h7⟩

/-- C7 (as stated) fails in two ways.  The device `r1` has its own `pass` and no
`enable`: the effective `enable` is that `pass`, the text `pw`, which is none of
the process-wide defaults.  And with all three required settings present but a
`timeout` entry that does not parse, resolution ends in a fatal error. -/
theorem enable_filled_from_device_pass :
    (mapGet exStateNoEnable.heap exDevice.Config "enable" = none ∧
      mapGet exStateNoEnable.heap exDevice.Config "pass" = some "pw" ∧
      exOpts.DefaultUser = "admin" ∧ exOpts.DefaultPass = "secret" ∧
      exOpts.DefaultMethod = "cisco" ∧
      ∃ dev st', resolveSettings exWorld exOpts exDevice exStateNoEnable = Except.ok (dev, st') ∧
        mapGet st'.heap dev.Config "enable" = some "pw") ∧
    (exDevice.Method = "cisco" ∧
      mapGet exStateBadTimeout.heap exDevice.Config "user" = some "u" ∧
      mapGet exStateBadTimeout.heap exDevice.Config "pass" = some "pw" ∧
      resolveSettings exWorld exOpts exDevice exStateBadTimeout =
        Except.error (Outcome.fatal "Bad timeout setting soon for host r1" exStateBadTimeout)) := by
  refine ⟨⟨by decide, by decide, rfl, rfl, rfl, _, _, rfl, by decide⟩,
    ⟨rfl, by decide, by decide, rfl⟩⟩

/-! ### The admission bound of a round -/

theorem Round.step_inv (K N : Nat) (s s' : Round) (a : Action)
    (hs : Round.Inv K s) (hstep : Round.step K N s a = some s') : Round.Inv K s' := by
  obtain ⟨h1, h2⟩ := hs
  cases a with
  | send =>
    simp only [Round.step] at hstep
    split at hstep
    · rename_i hc
      obtain ⟨hd, -, hlt⟩ := hc
      simp at hstep
      subst hstep
      refine ⟨by simpa using hlt, ?_⟩
      simp [hd] at h2 ⊢
      omega
    · contradiction
  | handoff =>
    simp only [Round.step] at hstep
    split at hstep
    · rename_i hc
      obtain ⟨-, hd, -, hw, -⟩ := hc
      simp at hstep
      subst hstep
      refine ⟨h1, ?_⟩
      simp [hd, hw] at h2 ⊢
      omega
    · contradiction
  | spawn =>
    simp only [Round.step] at hstep
    split at hstep
    · contradiction
    · split at hstep
      · rename_i hd
        simp at hstep
        subst hstep
        refine ⟨h1, ?_⟩
        simp [hd] at h2 ⊢
        omega
      · contradiction
  | finish i =>
    simp only [Round.step] at hstep
    split at hstep
    · contradiction
    · rename_i d hget
      simp at hstep
      subst hstep
      refine ⟨h1, ?_⟩
      have hi : i < s.running.length := by
        rcases Nat.lt_or_ge i s.running.length with h | h
        · exact h
        · rw [List.get?_eq_none.mpr h] at hget
          contradiction
      have hlen : (s.running.eraseIdx i).length = s.running.length - 1 :=
        List.length_eraseIdx_of_lt hi
      simp only [List.length_append, List.length_singleton, hlen]
      omega
  | takeSlot =>
    simp only [Round.step] at hstep
    split at hstep
    · rename_i hc
      obtain ⟨hw, -, hpos⟩ := hc
      simp at hstep
      subst hstep
      refine ⟨by simp; omega, ?_⟩
      simp [hw] at h2 ⊢
      omega
    · contradiction
  | takeDone =>
    simp only [Round.step] at hstep
    split at hstep
    · contradiction
    · rename_i d rest hq
      split at hstep
      · rename_i hw
        simp at hstep
        subst hstep
        refine ⟨h1, ?_⟩
        simp [hw, hq] at h2 ⊢
        omega
      · contradiction

theorem Round.run_inv (K N : Nat) (schedule : List Action) :
    ∀ s s' : Round, Round.Inv K s → Round.run K N s schedule = some s' → Round.Inv K s' := by
  induction schedule with
  | nil =>
    intro s s' hs hrun
    simp [Round.run] at hrun
    subst hrun
    exact hs
  | cons a as ih =>
    intro s s' hs hrun
    simp only [Round.run] at hrun
    cases hstep : Round.step K N s a with
    | none => simp [hstep] at hrun
    | some s1 =>
      simp only [hstep] at hrun
      exact ih s1 s' (Round.step_inv K N s s1 a hs hstep) hrun

theorem in_flight_le_succ (K : Nat) (devices : List String) (s : Round)
    (hr : Reachable K devices s) : s.inFlight ≤ K + 1 := by
  obtain ⟨schedule, hrun⟩ := hr
  have hinit : Round.Inv K (Round.init devices) := by
    simp [Round.Inv, Round.init]
  obtain ⟨h1, h2⟩ := Round.run_inv K devices.length schedule _ _ hinit hrun
  unfold Round.inFlight
  split_ifs at h2 <;> omega

/-- C2 (the code departs from the claim): with concurrency limit 1 and the two
devices `a` and `b`, the state in which both attempts are in flight is
reachable: the dispatcher sends a token and starts `a`, the waiting loop
receives the token before any attempt has sent on `done`, and the dispatcher
sends the next token and starts `b`. -/
theorem two_in_flight_with_limit_one :
    ∃ s, Reachable 1 ["a", "b"] s ∧ s.running = ["a", "b"] ∧ s.inFlight = 2 ∧
      ¬ s.inFlight ≤ 1 := by
  refine ⟨⟨1, [], DispatchPc.send, ["a", "b"], [], 0, WaitPc.done⟩,
    ⟨[Action.send, Action.spawn, Action.takeSlot, Action.send, Action.spawn], by decide⟩,
    rfl, rfl, by decide⟩

/-- C8 (the code departs from the claim): the device `r1` has the method
`external`, the defaults are set, and its `Config` bag has no `script` entry.
`collectDevice` indexes the first byte of the empty string and panics: no
registry entry is written and nothing is sent on `done`. -/
theorem external_without_script_panics :
    mapGet exState.heap exDeviceExternal.Config "script" = none ∧
    ∃ st', collectDevice exWorld exOpts exDeviceExternal exState = Outcome.panic st' ∧
      st'.status.Get "r1" = exState.status.Get "r1" ∧ st'.done = [] := by
  refine ⟨by decide, _, rfl, by decide, by decide⟩

/-! ### The branch after the login password -/

theorem awaitFirstOf_find (patterns : List String) (chunks : List String) :
    ∀ (buffer m buf : String), awaitFirstOf patterns buffer chunks = some (m, buf) →
      patterns.find? (fun p => contains buf p) = some m := by
  induction chunks with
  | nil =>
    intro buffer m buf h
    simp [awaitFirstOf] at h
  | cons chunk rest ih =>
    intro buffer m buf h
    simp only [awaitFirstOf] at h
    cases hf : patterns.find? (fun p => contains (buffer ++ chunk) p) with
    | none =>
      simp only [hf] at h
      exact ih _ m buf h
    | some p =>
      simp only [hf] at h
      simp only [Option.some.injEq, Prod.mk.injEq] at h
      obtain ⟨rfl, rfl⟩ := h
      exact hf

theorem cisco_auth_failure_iff (s : Session) (h : Heap) (device : DeviceAccess) (m : String)
    (hopen : s.start (sshCommand h device) = none) (hprompt : (s.resp 0).err = none)
    (hbranch : s.resp 1 = ⟨m, none⟩) :
    tookAuthFailure (Cisco.Collect s h device) device ↔ m = "assword:" := by
  constructor
  · intro ⟨hlen, _⟩
    by_contra hm
    revert hlen
    by_cases hg : m = ">"
    · simp only [Cisco.Collect, newSSHCollector, hopen, expect, expectMulti, timeoutSave,
        SSHCollector.call, SSHCollector.Send, hprompt, hbranch, hm, hg]
      repeat' split
      all_goals first | contradiction | (exfalso; simp at *; done) | simp [awaitedCalls]
    · simp only [Cisco.Collect, newSSHCollector, hopen, expect, expectMulti, timeoutSave,
        SSHCollector.call, SSHCollector.Send, hprompt, hbranch, hm, hg]
      repeat' split
      all_goals first | contradiction | (exfalso; simp at *; done) | simp [awaitedCalls]
  · intro hm
    subst hm
    simp [tookAuthFailure, Cisco.Collect, newSSHCollector, hopen, expect, expectMulti,
      SSHCollector.call, SSHCollector.Send, hprompt, hbranch, awaitedCalls]

theorem junos_auth_failure_iff (s : Session) (h : Heap) (device : DeviceAccess) (m : String)
    (hopen : s.start (sshCommand h device) = none) (hprompt : (s.resp 0).err = none)
    (hbranch : s.resp 1 = ⟨m, none⟩) :
    tookAuthFailure (JunOS.Collect s h device) device ↔ m = "assword:" := by
  constructor
  · intro ⟨hlen, _⟩
    by_contra hm
    revert hlen
    simp only [JunOS.Collect, newSSHCollector, hopen, expect, expectMulti, timeoutSave,
      SSHCollector.call, SSHCollector.Send, hprompt, hbranch, hm]
    repeat' split
    all_goals first | contradiction | (exfalso; simp at *; done) | simp [awaitedCalls]
  · intro hm
    subst hm
    simp [tookAuthFailure, JunOS.Collect, newSSHCollector, hopen, expect, expectMulti,
      SSHCollector.call, SSHCollector.Send, hprompt, hbranch, awaitedCalls]

theorem cisco_branch_call (s : Session) (h : Heap) (device : DeviceAccess)
    (hopen : s.start (sshCommand h device) = none) (hprompt : (s.resp 0).err = none) :
    (awaitedCalls (Cisco.Collect s h device).trace).get? 1 =
      some (Call.expectMulti Cisco.multi) := by
  simp only [Cisco.Collect, newSSHCollector, hopen, expect, expectMulti, timeoutSave,
    SSHCollector.call, SSHCollector.Send, hprompt, Cisco.multi]
  repeat' split
  all_goals simp [awaitedCalls]

theorem junos_branch_call (s : Session) (h : Heap) (device : DeviceAccess)
    (hopen : s.start (sshCommand h device) = none) (hprompt : (s.resp 0).err = none) :
    (awaitedCalls (JunOS.Collect s h device).trace).get? 1 =
      some (Call.expectMulti JunOS.multi) := by
  simp only [JunOS.Collect, newSSHCollector, hopen, expect, expectMulti, timeoutSave,
    SSHCollector.call, SSHCollector.Send, hprompt, JunOS.multi]
  repeat' split
  all_goals simp [awaitedCalls]

/-- C10 (amended): in the branch that follows the login password, both drivers
pass the success prompts before the password re-prompt (`#`, `>`, `assword:`
for Cisco; `>`, `assword:` for JunOS) as their second helper call.  Under the list-order tie-break of
`expectMulti`, with `buf` the output accumulated when the branch returns: the
driver takes the authentication-failure outcome exactly when `buf` contains the
re-prompt and none of its success prompts; when `buf` contains both the
re-prompt and a success prompt, the success prompt wins and the driver does not
take the authentication-failure outcome. -/
theorem branch_prefers_success_prompt (s : Session) (h : Heap) (device : DeviceAccess)
    (chunks : List String) (m buf : String)
    (hopen : s.start (sshCommand h device) = none)
    (hprompt : (s.resp 0).err = none)
    (hbranch : s.resp 1 = ⟨m, none⟩) :
    (awaitedCalls (Cisco.Collect s h device).trace).get? 1 =
      some (Call.expectMulti ["#", ">", "assword:"]) ∧
    (awaitedCalls (JunOS.Collect s h device).trace).get? 1 =
      some (Call.expectMulti [">", "assword:"]) ∧
    (awaitFirstOf Cisco.multi "" chunks = some (m, buf) →
      (tookAuthFailure (Cisco.Collect s h device) device ↔
        contains buf "#" = false ∧ contains buf ">" = false ∧
          contains buf "assword:" = true) ∧
      (contains buf "assword:" = true →
        contains buf "#" = true ∨ contains buf ">" = true →
        ¬ tookAuthFailure (Cisco.Collect s h device) device ∧ (m = "#" ∨ m = ">"))) ∧
    (awaitFirstOf JunOS.multi "" chunks = some (m, buf) →
      (tookAuthFailure (JunOS.Collect s h device) device ↔
        contains buf ">" = false ∧ contains buf "assword:" = true) ∧
      (contains buf "assword:" = true → contains buf ">" = true →
        ¬ tookAuthFailure (JunOS.Collect s h device) device ∧ m = ">")) := by
  have hc := cisco_auth_failure_iff s h device m hopen hprompt hbranch
  have hj := junos_auth_failure_iff s h device m hopen hprompt hbranch
  refine ⟨cisco_branch_call s h device hopen hprompt,
    junos_branch_call s h device hopen hprompt, ?_, ?_⟩
  · intro hawait
    have hfind := awaitFirstOf_find Cisco.multi chunks "" m buf hawait
    rw [hc]
    simp only [Cisco.multi, List.find?] at hfind
    cases h1 : contains buf "#" <;> cases h2 : contains buf ">" <;>
      cases h3 : contains buf "assword:" <;> simp [h1, h2, h3] at hfind <;>
      simp [← hfind]
  · intro hawait
    have hfind := awaitFirstOf_find JunOS.multi chunks "" m buf hawait
    rw [hj]
    simp only [JunOS.multi, List.find?] at hfind
    cases h2 : contains buf ">" <;>
      cases h3 : contains buf "assword:" <;> simp [h2, h3] at hfind <;>
      simp [← hfind]

theorem branch_prefers_success_prompt_witness :
    awaitFirstOf Cisco.multi "" ["Login incorrect\n", "Password:"] =
      some ("assword:", "Login incorrect\nPassword:") ∧
    tookAuthFailure (Cisco.Collect (exSessionBranch "assword:") exHeap exDevice) exDevice ∧
    awaitFirstOf JunOS.multi "" ["Login incorrect\n", "Password:"] =
      some ("assword:", "Login incorrect\nPassword:") ∧
    tookAuthFailure (JunOS.Collect (exSessionBranch "assword:") exHeap exDevice) exDevice := by
  have hc : awaitFirstOf Cisco.multi "" ["Login incorrect\n", "Password:"] =
      some ("assword:", "Login incorrect\nPassword:") := by decide
  have hj : awaitFirstOf JunOS.multi "" ["Login incorrect\n", "Password:"] =
      some ("assword:", "Login incorrect\nPassword:") := by decide
  have key := branch_prefers_success_prompt (exSessionBranch "assword:") exHeap exDevice
    ["Login incorrect\n", "Password:"] "assword:" "Login incorrect\nPassword:" rfl rfl rfl
  exact ⟨hc, (key.2.2.1 hc).1.mpr (by decide), hj, (key.2.2.2 hj).1.mpr (by decide)⟩

/-- C10 (as stated) fails: the accumulated output `attempt #2 -> Password:`
contains the password re-prompt and the success prompts `#` and `>`.  Under
the list-order tie-break the Cisco candidates yield `#` and the JunOS candidates
yield `>`, and with these answers both drivers go on and return without error
instead of taking the authentication-failure outcome. -/
theorem reprompt_loses_to_success_prompt :
    contains "attempt #2 -> Password:" "assword:" = true ∧
    awaitFirstOf Cisco.multi "" ["attempt #2 -> Password:"] =
      some ("#", "attempt #2 -> Password:") ∧
    (Cisco.Collect (exSessionBranch "#") exHeap exDevice).err = none ∧
    awaitFirstOf JunOS.multi "" ["attempt #2 -> Password:"] =
      some (">", "attempt #2 -> Password:") ∧
    (JunOS.Collect (exSessionBranch ">") exHeap exDevice).err = none := by
  refine ⟨by decide, by decide, by decide, by decide, by decide⟩

/-! ### Completion of an attempt -/

theorem collectDevice_completes_once (w : World) (Opts : SweetOptions)
    (device dev : DeviceAccess) (st st1 st2 : State) (c : Option Collector)
    (hres : resolveSettings w Opts device st = Except.ok (dev, st1))
    (hcol : chooseCollector Opts dev st1 = Except.ok (c, st2))
    (hrun : ∀ c', c = some c' → c'.Collect w st2.heap dev ≠ none)
    (hwrite : ∀ text, w.writeFile device.Hostname text = none) :
    ∃ st' msg ts, collectDevice w Opts device st = Outcome.returned st' ∧
      st'.status = st.status.Set ⟨device.Hostname, msg, ts⟩ ∧
      st'.done = st.done ++ [device.Hostname] := by
  obtain ⟨hh, -, hs1, hd1, -, -⟩ := resolveSettings_ok_frame w Opts device dev st st1 hres
  obtain ⟨hs2, hd2, -, -⟩ := chooseCollector_ok_frame Opts dev st1 st2 c hcol
  cases c with
  | none =>
    simp only [collectDevice, hres, hcol]
    refine ⟨_, ?_, ?_, rfl, ?_, ?_⟩
    rotate_left 2
    · simp only [LogErr, hs2, hs1, hh]; exact rfl
    · simp [LogErr, hd2, hd1, hh]
  | some c' =>
    cases hc : c'.Collect w st2.heap dev with
    | none => exact absurd hc (hrun c' rfl)
    | some run =>
      simp only [collectDevice, hres, hcol, hc]
      by_cases ht : timerFirst Opts.Timeout run.elapsed w.timerWinsTie = true
      · simp only [ht, if_true]
        refine ⟨_, ?_, ?_, rfl, ?_, ?_⟩
        rotate_left 2
        · simp only [LogErr, hs2, hs1, hh]; exact rfl
        · simp [LogErr, hd2, hd1, hh]
      · simp only [ht]
        cases he : run.err with
        | some err =>
          refine ⟨_, ?_, ?_, rfl, ?_, ?_⟩
          rotate_left 2
          · simp only [LogErr, hs2, hs1, hh]; exact rfl
          · simp [LogErr, hd2, hd1, hh]
        | none =>
          cases hcfg : run.result "config" with
          | none =>
            simp only [hcfg]
            refine ⟨_, ?_, ?_, rfl, ?_, ?_⟩
            rotate_left 2
            · simp only [LogErr, hs2, hs1, hh]; exact rfl
            · simp [LogErr, hd2, hd1, hh]
          | some rawConfig =>
            simp only [hcfg, hh, hwrite]
            refine ⟨_, ?_, ?_, rfl, ?_, ?_⟩
            rotate_left 2
            · simp only [hs2, hs1]; exact rfl
            · simp [hd2, hd1]

end Sweet
